import Mathlib

/-
  Verification development for the sqlocal async command-dispatch protocol.

  The embedding follows src/src/processor.ts (class SQLocalProcessor) and
  src/src/client.ts (class SQLocal).  The embedded SQLite engine
  (package @sqlite.org/sqlite-wasm) and the key generator (package nanoid)
  are external dependencies of the repository; they are modelled from the
  spec, which treats them as opaque external collaborators.  Everything
  else is translated directly from the TypeScript source.
-/

namespace SQLocalSpec

/-- Correlation keys.  In the source a key is an opaque unique string from
nanoid; the model represents the supply of unique tokens by natural
numbers handed out by a counter (see ClientState.nextKeySeed).  A real
nanoid key is a non-empty string, hence always truthy in the JavaScript
checks that test it. -/
abbrev QueryKey := Nat

/-- A single result row: an ordered sequence of scalar column values. -/
abbrev Row := List Int

/-- The value stored in the rows field of a data message.  In TypeScript
this field is untyped: it can hold an array of rows, a single row
(the element rows[0]), or undefined (rows[0] of an empty array). -/
inductive RowsField where
  | list (rows : List Row)
  | single (r : Row)
  | undefined
deriving DecidableEq, Repr

/-- The method field of a query message: run, get, or all
(src/src/processor.ts, switch on message.method; the default branch of
the switch coincides with the all branch). -/
inductive Sqlite3Method where
  | run
  | get
  | all
deriving DecidableEq, Repr

/-- One parameterized statement: sql text plus positional parameters. -/
structure Stmt where
  sql : String
  params : List Int
deriving DecidableEq, Repr

/-- Connection settings carried by a config message
(ProcessorConfig in the source). -/
structure ProcessorConfig where
  databasePath : Option String := none
  storage : Option String := none
  create : Option Bool := none
  readonly : Option Bool := none
  verbose : Option Bool := none
deriving DecidableEq, Repr

/-- Structured errors travelling in error messages. -/
inductive Err where
  | engineError (sql : String)
  | duplicateFunction (functionName : String)
  | setupError (msg : String)
deriving DecidableEq, Repr

/-- Input messages accepted by the processor (InputMessage in the source:
ConfigMessage, QueryMessage, TransactionMessage, FunctionMessage,
DestroyMessage).  Every variant except config carries a queryKey. -/
inductive InputMessage where
  | config (config : ProcessorConfig)
  | query (queryKey : QueryKey) (sql : String) (params : List Int)
      (method : Sqlite3Method)
  | transaction (queryKey : QueryKey) (statements : List Stmt)
  | function (queryKey : QueryKey) (functionName : String)
  | destroy (queryKey : QueryKey)
deriving DecidableEq, Repr

/-- Output messages emitted by the processor (OutputMessage in the source:
DataMessage, SuccessMessage, ErrorMessage, CallbackMessage).  The
queryKey of an error message may be null (setup failures). -/
inductive OutputMessage where
  | data (queryKey : QueryKey) (rows : RowsField) (columns : List String)
  | success (queryKey : QueryKey)
  | error (queryKey : Option QueryKey) (error : Err)
  | callback (name : String) (args : List Int)
deriving DecidableEq, Repr

/-- The correlation key carried by an input message (none for config). -/
def InputMessage.key : InputMessage → Option QueryKey
  | .config _ => none
  | .query k _ _ _ => some k
  | .transaction k _ => some k
  | .function k _ => some k
  | .destroy k => some k

/-- The correlation key carried by an output message
(none for callbacks; error keys may be null). -/
def OutputMessage.key : OutputMessage → Option QueryKey
  | .data k _ _ => some k
  | .success k => some k
  | .error k _ => k
  | .callback _ _ => none

def InputMessage.isConfig : InputMessage → Bool
  | .config _ => true
  | _ => false

def InputMessage.isDestroy : InputMessage → Bool
  | .destroy _ => true
  | _ => false

/-! ## The embedded engine, modelled from the spec

The spec (sections 1 and 6) treats the SQL engine as an opaque external
collaborator exposing statement execution and an atomic transaction
primitive with its own atomicity guarantee.  The model abstracts the
engine as a record of pure functions over an engine state type. -/

/-- Modelled from the spec: the opaque embedded database engine
(package @sqlite.org/sqlite-wasm, not part of this repository).  It
exposes connection opening, per-statement success, state transition,
result rows and column names.  The state type is abstract. -/
structure Engine (σ : Type) where
  openDb : ProcessorConfig → Except Err σ
  execOk : σ → Stmt → Bool
  execApply : σ → Stmt → σ
  execRows : σ → Stmt → List Row
  execCols : σ → Stmt → List String

/-- A live database connection: the engine state together with the names
of the user functions attached to this connection via createFunction. -/
structure Conn (σ : Type) where
  engineState : σ
  attachedFns : List String
deriving DecidableEq, Repr

/-- Modelled from the spec: the body of the engine atomic-execution
primitive (db.transaction in processor.ts) runs the statements in the
given order; the first failing statement aborts the whole run.  The
engine guarantees rollback, so a caller receiving an error keeps its
original state. -/
def runStmts (e : Engine σ) : σ → List Stmt → Except Err σ
  | s, [] => .ok s
  | s, st :: rest =>
      if e.execOk s st then runStmts e (e.execApply s st) rest
      else .error (.engineError st.sql)

/-! ## The execution processor (src/src/processor.ts) -/

/-- The mutable state of SQLocalProcessor: the optional connection, the
active config, the FIFO buffer of queued messages, and the registry of
user functions (a map from name to a relay handler; since a relay
handler is determined by its name, the registry is kept as the list of
registered names in insertion order). -/
structure ProcState (σ : Type) where
  db : Option (Conn σ)
  config : ProcessorConfig
  queuedMessages : List InputMessage
  userFunctions : List String
deriving DecidableEq, Repr

/-- The relay handler constructed in createCallbackFunction: when the
engine invokes the named user function it emits a callback message
with the call arguments. -/
def relayOutput (functionName : String) (args : List Int) : OutputMessage :=
  .callback functionName args

/-- initUserFunction (processor.ts): attach one registered user function
to a connection via the engine createFunction facility. -/
def attachUserFunction (c : Conn σ) (functionName : String) : Conn σ :=
  { c with attachedFns := c.attachedFns ++ [functionName] }

/-- The configValid test at the top of init (processor.ts):
this.config.databasePath is truthy, or storage ?? empty-string is one of
local, session. -/
def configValid (cfg : ProcessorConfig) : Bool :=
  (match cfg.databasePath with
   | none => false
   | some s => s ≠ "")
  || (cfg.storage.getD "" == "local" || cfg.storage.getD "" == "session")

/-- The query branch of exec (processor.ts): execute the statement with
positional binding, then shape the response rows by method — run keeps
the initial empty rows, get takes rows[0] (undefined when there are no
rows), all returns every row.  The columns array is filled by the
engine in engine order for every method.  An engine failure is caught
and reported as an error message carrying the original key. -/
def procExecQuery (e : Engine σ) (s : ProcState σ) (queryKey : QueryKey)
    (sql : String) (params : List Int) (method : Sqlite3Method) :
    ProcState σ × List OutputMessage :=
  match s.db with
  | none => (s, [])
  | some c =>
      let st : Stmt := ⟨sql, params⟩
      if e.execOk c.engineState st then
        let rows := e.execRows c.engineState st
        let cols := e.execCols c.engineState st
        let shaped : RowsField :=
          match method with
          | .run => .list []
          | .get =>
              match rows with
              | [] => .undefined
              | r :: _ => .single r
          | .all => .list rows
        ({ s with db := some { c with engineState := e.execApply c.engineState st } },
         [.data queryKey shaped cols])
      else (s, [.error (some queryKey) (.engineError sql)])

/-- The transaction branch of exec (processor.ts): run every statement in
order inside db.transaction; on success emit the data message with the
untouched empty rows and columns; on failure the engine rolls back (the
connection state is unchanged) and the catch emits a single error
message carrying the batch key. -/
def procExecTransaction (e : Engine σ) (s : ProcState σ)
    (queryKey : QueryKey) (statements : List Stmt) :
    ProcState σ × List OutputMessage :=
  match s.db with
  | none => (s, [])
  | some c =>
      match runStmts e c.engineState statements with
      | .ok s2 =>
          ({ s with db := some { c with engineState := s2 } },
           [.data queryKey (.list []) []])
      | .error err => (s, [.error (some queryKey) err])

/-- createCallbackFunction (processor.ts): reject a name already in the
registry with an error and no mutation; otherwise attach the relay to
the connection (initUserFunction is a no-op without a connection), add
the name to the registry and emit success. -/
def procCreateCallbackFunction (s : ProcState σ) (queryKey : QueryKey)
    (functionName : String) : ProcState σ × List OutputMessage :=
  if functionName ∈ s.userFunctions then
    (s, [.error (some queryKey) (.duplicateFunction functionName)])
  else
    let s2 :=
      match s.db with
      | none => s
      | some c => { s with db := some (attachUserFunction c functionName) }
    ({ s2 with userFunctions := s2.userFunctions ++ [functionName] },
     [.success queryKey])

/-- destroy (processor.ts): close and drop the connection, then emit
success carrying the destroy key. -/
def procDestroy (s : ProcState σ) (queryKey : QueryKey) :
    ProcState σ × List OutputMessage :=
  ({ s with db := none }, [.success queryKey])

/-- The three mutually recursive entry points of the processor:
postMessage, init and flushQueue (processor.ts). -/
inductive ProcCall (σ : Type) where
  | post (s : ProcState σ) (m : InputMessage)
  | init (s : ProcState σ)
  | flush (s : ProcState σ)

/-- procGo e fuel call runs one of the processor entry points.  The three
TypeScript methods are mutually recursive (postMessage of a config
message calls init, init on success calls flushQueue, flushQueue feeds
each buffered message back through postMessage); the recursion is
fuel-indexed and a result of none means the computation did not finish
within the given fuel — the flushQueue while loop genuinely diverges
when a buffered destroy closes the connection while later messages
remain buffered, so no uniform bound exists. -/
def procGo (e : Engine σ) : Nat → ProcCall σ →
    Option (ProcState σ × List OutputMessage)
  | 0, _ => none
  | fuel + 1, .post s m =>
      if s.db.isNone && !m.isConfig then
        some ({ s with queuedMessages := s.queuedMessages ++ [m] }, [])
      else
        match m with
        | .config cfg => procGo e fuel (.init { s with config := cfg })
        | .query k sql params method =>
            some (procExecQuery e s k sql params method)
        | .transaction k statements =>
            some (procExecTransaction e s k statements)
        | .function k functionName =>
            some (procCreateCallbackFunction s k functionName)
        | .destroy k => some (procDestroy s k)
  | fuel + 1, .init s =>
      if !configValid s.config then some (s, [])
      else
        match e.openDb s.config with
        | .error err => some ({ s with db := none }, [.error none err])
        | .ok d =>
            procGo e fuel
              (.flush { s with
                db := some (s.userFunctions.foldl attachUserFunction
                  ⟨d, []⟩) })
  | fuel + 1, .flush s =>
      match s.queuedMessages with
      | [] => some (s, [])
      | m :: rest => do
          let r1 ← procGo e fuel (.post { s with queuedMessages := rest } m)
          let r2 ← procGo e fuel (.flush r1.1)
          return (r2.1, r1.2 ++ r2.2)

/-! ## The client facade (src/src/client.ts) -/

/-- The mutable state of a SQLocal instance: the destroyed flag, the
fresh-key counter standing for the nanoid supply, the keys of the
queriesInProgress map (insertion order; the stored resolve and reject
callbacks are represented by the routing events the facade produces),
and the names in the userCallbacks handler table. -/
structure ClientState where
  isDestroyed : Bool
  nextKeySeed : Nat
  queriesInProgress : List QueryKey
  userCallbacks : List String
deriving DecidableEq, Repr

/-- The facade state created by the constructor. -/
def initClient : ClientState :=
  { isDestroyed := false, nextKeySeed := 0,
    queriesInProgress := [], userCallbacks := [] }

/-- A public request before a key has been attached
(OmitQueryKey of a query, transaction, function or destroy message);
sql and execute, transaction, createCallbackFunction and destroy all
funnel into createQuery with one of these. -/
inductive Request where
  | query (sql : String) (params : List Int) (method : Sqlite3Method)
  | transaction (statements : List Stmt)
  | function (functionName : String)
  | destroy
deriving DecidableEq, Repr

/-- Attach a correlation key to a request, giving the posted message. -/
def Request.withKey : Request → QueryKey → InputMessage
  | .query sql params method, k => .query k sql params method
  | .transaction statements, k => .transaction k statements
  | .function functionName, k => .function k functionName
  | .destroy, k => .destroy k

/-- The error thrown locally by createQuery on a destroyed client. -/
inductive ClientError where
  | destroyedClient
deriving DecidableEq, Repr

/-- createQuery (client.ts): throw the destroyed error on a destroyed
client; otherwise draw a fresh key, post the keyed message, and record
the pending request under the key.  The result carries the new state,
the chosen key and the message sent across the channel. -/
def clientCreateQuery (c : ClientState) (r : Request) :
    Except ClientError (ClientState × QueryKey × InputMessage) :=
  if c.isDestroyed then .error .destroyedClient
  else
    let k := c.nextKeySeed
    .ok ({ c with
            nextKeySeed := k + 1,
            queriesInProgress := c.queriesInProgress ++ [k] },
         k, r.withKey k)

/-- Observable routing actions of the facade message handler: resolving
or rejecting a pending request, raising an error that matches no
pending request, invoking a registered user callback, or the local
throw of createQuery on a destroyed client. -/
inductive RouteEvent where
  | resolved (k : QueryKey) (m : OutputMessage)
  | rejected (k : QueryKey) (e : Err)
  | unhandledError (e : Err)
  | callbackInvoked (name : String) (args : List Int)
  | threwDestroyedError
deriving DecidableEq, Repr

/-- processMessageEvent (client.ts): a data, success or error message
whose truthy key has a pending entry settles that entry (resolve for
data and success, reject for error) and deletes it from the map; an
error message with no matching entry (null key included) is thrown
unhandled; a callback message invokes the registered handler, or is
silently dropped when none is registered. -/
def clientProcessMessage (c : ClientState) (m : OutputMessage) :
    ClientState × List RouteEvent :=
  match m with
  | .data k _ _ =>
      if k ∈ c.queriesInProgress then
        ({ c with queriesInProgress := c.queriesInProgress.erase k },
         [.resolved k m])
      else (c, [])
  | .success k =>
      if k ∈ c.queriesInProgress then
        ({ c with queriesInProgress := c.queriesInProgress.erase k },
         [.resolved k m])
      else (c, [])
  | .error ok err =>
      match ok with
      | some k =>
          if k ∈ c.queriesInProgress then
            ({ c with queriesInProgress := c.queriesInProgress.erase k },
             [.rejected k err])
          else (c, [.unhandledError err])
      | none => (c, [.unhandledError err])
  | .callback name args =>
      if name ∈ c.userCallbacks then (c, [.callbackInvoked name args])
      else (c, [])

/-- The steps the facade can take: a public API call (which goes through
createQuery), receipt of an output message, the tail of destroy after
its success message arrives (clear both registries, set the destroyed
flag), and the tail of createCallbackFunction after its success (store
the handler under the name). -/
inductive FacadeInput where
  | call (r : Request)
  | recv (m : OutputMessage)
  | finishDestroy
  | registerHandler (name : String)
deriving DecidableEq, Repr

/-- One facade step: returns the next state, the routing events
produced, and the messages sent across the channel. -/
def clientStep (c : ClientState) (i : FacadeInput) :
    ClientState × List RouteEvent × List InputMessage :=
  match i with
  | .call r =>
      match clientCreateQuery c r with
      | .error _ => (c, [.threwDestroyedError], [])
      | .ok (c2, _, msg) => (c2, [], [msg])
  | .recv m =>
      let r := clientProcessMessage c m
      (r.1, r.2, [])
  | .finishDestroy =>
      ({ c with queriesInProgress := [], userCallbacks := [],
                isDestroyed := true }, [], [])
  | .registerHandler name =>
      (if name ∈ c.userCallbacks then c
       else { c with userCallbacks := c.userCallbacks ++ [name] }, [], [])

/-- Run the facade over a list of inputs, accumulating events and sent
messages in order. -/
def clientRun (c : ClientState) :
    List FacadeInput → ClientState × List RouteEvent × List InputMessage
  | [] => (c, [], [])
  | i :: rest =>
      let r1 := clientStep c i
      let r2 := clientRun r1.1 rest
      (r2.1, r1.2.1 ++ r2.2.1, r1.2.2 ++ r2.2.2)

/-- Whether an event settles (resolves or rejects) the key k. -/
def isSettleFor (k : QueryKey) : RouteEvent → Bool
  | .resolved k2 _ => k2 == k
  | .rejected k2 _ => k2 == k
  | _ => false

/-- How many events of the list settle the key k. -/
def settleCount (evs : List RouteEvent) (k : QueryKey) : Nat :=
  (evs.filter (isSettleFor k)).length

/-- The correlation keys of a list of sent messages. -/
def sentKeys (msgs : List InputMessage) : List QueryKey :=
  msgs.filterMap InputMessage.key

/-- The data shaping at the end of the facade exec (client.ts): the
result rows and columns start as empty defaults and are overwritten by
the fields of a data message — whatever value the rows field holds,
the undefined of an empty get included. -/
def clientExecData (m : OutputMessage) : RowsField × List String :=
  match m with
  | .data _ rows columns => (rows, columns)
  | _ => (.list [], [])

/-! ## Concrete engine instances used to evaluate the model -/

/-- A concrete engine for evaluation: its state is the log of committed
statements; a statement fails exactly when its sql text is BAD, and a
statement whose sql text is EMPTY produces no result rows. -/
def testEngine : Engine (List Stmt) :=
  { openDb := fun _ => .ok []
    execOk := fun _ st => st.sql ≠ "BAD"
    execApply := fun s st => s ++ [st]
    execRows := fun _ st => if st.sql = "EMPTY" then [] else [[1], [2]]
    execCols := fun _ _ => ["name"] }

/-- A concrete engine whose connection setup always fails. -/
def failEngine : Engine (List Stmt) :=
  { testEngine with openDb := fun _ => .error (.setupError "open failed") }

/-- A valid concrete configuration. -/
def goodCfg : ProcessorConfig := { databasePath := some "test.db" }

/-! ## Claim C1: transactions are atomic, ordered, single-response -/

/-- C1.  For every transaction message, the processor runs all statements
in the given order inside the engine atomic-execution primitive
(runStmts is the in-order body of db.transaction); on success it emits
exactly one data message, and on failure of any statement the engine
rolls back (the processor state, connection included, is unchanged)
and exactly one error message carrying the batch correlation key is
emitted — in particular no data message for that batch. -/
theorem C1_transaction_atomic (σ : Type) (e : Engine σ) (s : ProcState σ)
    (c : Conn σ) (k : QueryKey) (statements : List Stmt)
    (hdb : s.db = some c) :
    (∀ s2, runStmts e c.engineState statements = .ok s2 →
      procExecTransaction e s k statements =
        ({ s with db := some { c with engineState := s2 } },
         [.data k (.list []) []])) ∧
    (∀ err, runStmts e c.engineState statements = .error err →
      procExecTransaction e s k statements =
        (s, [.error (some k) err])) := by
  constructor
  · intro s2 hrun
    simp [procExecTransaction, hdb, hrun]
  · intro err hrun
    simp [procExecTransaction, hdb, hrun]

/-- Witness for C1 at a concrete input: a batch whose trailing statement
is invalid leaves the committed-statement log unchanged and produces a
single error carrying the batch key. -/
theorem C1_transaction_atomic_witness :
    procExecTransaction testEngine ⟨some ⟨[], []⟩, goodCfg, [], []⟩ 7
        [⟨"INSERT", []⟩, ⟨"BAD", []⟩] =
      (⟨some ⟨[], []⟩, goodCfg, [], []⟩,
       [.error (some 7) (.engineError "BAD")]) :=
  (C1_transaction_atomic (List Stmt) testEngine
      ⟨some ⟨[], []⟩, goodCfg, [], []⟩ ⟨[], []⟩ 7
      [⟨"INSERT", []⟩, ⟨"BAD", []⟩] rfl).2
    (.engineError "BAD") rfl

/-! ## Claim C8: query results are shaped by the method field -/

/-- C8.  For every query message that the engine executes successfully,
the data message is shaped by the method: run yields no rows, get
yields only the first row of the engine result (when the result is
non-empty), all yields every row; the parallel column-name sequence is
the engine column order in all three cases. -/
theorem C8_query_shaping (σ : Type) (e : Engine σ) (s : ProcState σ)
    (c : Conn σ) (k : QueryKey) (sql : String) (params : List Int)
    (hdb : s.db = some c)
    (hok : e.execOk c.engineState ⟨sql, params⟩ = true) :
    procExecQuery e s k sql params .run =
      ({ s with db := some ({ c with engineState := e.execApply c.engineState ⟨sql, params⟩ }) },
       [.data k (.list []) (e.execCols c.engineState ⟨sql, params⟩)]) ∧
    (∀ r rest, e.execRows c.engineState ⟨sql, params⟩ = r :: rest →
      procExecQuery e s k sql params .get =
        ({ s with db := some ({ c with engineState := e.execApply c.engineState ⟨sql, params⟩ }) },
         [.data k (.single r) (e.execCols c.engineState ⟨sql, params⟩)])) ∧
    procExecQuery e s k sql params .all =
      ({ s with db := some ({ c with engineState := e.execApply c.engineState ⟨sql, params⟩ }) },
       [.data k (.list (e.execRows c.engineState ⟨sql, params⟩))
          (e.execCols c.engineState ⟨sql, params⟩)]) := by
  refine ⟨?_, ?_, ?_⟩
  · simp [procExecQuery, hdb, hok]
  · intro r rest hrows
    simp [procExecQuery, hdb, hok, hrows]
  · simp [procExecQuery, hdb, hok]

/-- Witness for C8 at a concrete input: the three methods shape the same
two-row engine result as no rows, the first row, and all rows, with
the engine column names each time. -/
theorem C8_query_shaping_witness :
    procExecQuery testEngine ⟨some ⟨[], []⟩, goodCfg, [], []⟩ 3 "SELECT" [] .run =
      (⟨some ⟨[⟨"SELECT", []⟩], []⟩, goodCfg, [], []⟩,
       [.data 3 (.list []) ["name"]]) ∧
    procExecQuery testEngine ⟨some ⟨[], []⟩, goodCfg, [], []⟩ 3 "SELECT" [] .get =
      (⟨some ⟨[⟨"SELECT", []⟩], []⟩, goodCfg, [], []⟩,
       [.data 3 (.single [1]) ["name"]]) ∧
    procExecQuery testEngine ⟨some ⟨[], []⟩, goodCfg, [], []⟩ 3 "SELECT" [] .all =
      (⟨some ⟨[⟨"SELECT", []⟩], []⟩, goodCfg, [], []⟩,
       [.data 3 (.list [[1], [2]]) ["name"]]) := by
  have h := C8_query_shaping (List Stmt) testEngine
    ⟨some ⟨[], []⟩, goodCfg, [], []⟩ ⟨[], []⟩ 3 "SELECT" [] rfl (by decide)
  exact ⟨h.1, h.2.1 [1] [[2]] rfl, h.2.2⟩

/-! ## Claim C10: a get with zero rows yields undefined, not empty -/

/-- C10.  For a query message with the get method whose execution
produces zero rows, the data message rows field is the out-of-bounds
element rows[0] — undefined, not an empty sequence — and the facade
exec returns that undefined value as its rows instead of the empty
default it initializes. -/
theorem C10_get_empty_undefined (σ : Type) (e : Engine σ)
    (s : ProcState σ) (c : Conn σ) (k : QueryKey) (sql : String)
    (params : List Int) (hdb : s.db = some c)
    (hok : e.execOk c.engineState ⟨sql, params⟩ = true)
    (hrows : e.execRows c.engineState ⟨sql, params⟩ = []) :
    procExecQuery e s k sql params .get =
      ({ s with db := some ({ c with engineState := e.execApply c.engineState ⟨sql, params⟩ }) },
       [.data k .undefined (e.execCols c.engineState ⟨sql, params⟩)]) ∧
    (∀ columns,
      (clientExecData (.data k .undefined columns)).1 = .undefined) ∧
    RowsField.undefined ≠ .list [] := by
  refine ⟨?_, ?_, by decide⟩
  · simp [procExecQuery, hdb, hok, hrows]
  · intro columns
    simp [clientExecData]

/-- Witness for C10 at a concrete input: a get on a statement with no
result rows produces a data message whose rows field is undefined, and
the facade hands that undefined through. -/
theorem C10_get_empty_undefined_witness :
    procExecQuery testEngine ⟨some ⟨[], []⟩, goodCfg, [], []⟩ 4 "EMPTY" [] .get =
      (⟨some ⟨[⟨"EMPTY", []⟩], []⟩, goodCfg, [], []⟩,
       [.data 4 .undefined ["name"]]) ∧
    (clientExecData (.data 4 .undefined ["name"])).1 = .undefined := by
  have h := C10_get_empty_undefined (List Stmt) testEngine
    ⟨some ⟨[], []⟩, goodCfg, [], []⟩ ⟨[], []⟩ 4 "EMPTY" [] rfl (by decide) rfl
  exact ⟨h.1, h.2.1 ["name"]⟩

/-! ## Claim C4: behaviour after a destroy message -/

/-- C4, counterexample to the claim as stated.  The claim says that after
handling a destroy message the processor never dispatches any further
input message.  In the code postMessage only buffers messages whose
type is not config: a config message arriving after destroy is still
dispatched — here it runs editConfig and init and re-creates a
connection (db changes from none back to some), instead of being
buffered. -/
theorem C4_counterexample :
    procGo testEngine 3
        (.post ⟨none, goodCfg, [], []⟩ (.config goodCfg)) =
      some (⟨some ⟨[], []⟩, goodCfg, [], []⟩, []) := by
  decide

/-- C4, amended.  After the processor handles a destroy message it closes
and drops the connection and emits exactly one success message carrying
the destroy correlation key; thereafter every non-config input message
is appended to the queue instead of being dispatched (a config message,
by contrast, is still dispatched and can re-create the connection, so
dispatch does not stop permanently — see the counterexample). -/
theorem C4_destroy_then_inert (σ : Type) (e : Engine σ) (fuel : Nat)
    (s : ProcState σ) (c : Conn σ) (k : QueryKey) :
    (s.db = some c →
      procGo e (fuel + 1) (.post s (.destroy k)) =
        some ({ s with db := none }, [.success k])) ∧
    (∀ s2 : ProcState σ, ∀ m : InputMessage,
      s2.db = none → m.isConfig = false →
      procGo e (fuel + 1) (.post s2 m) =
        some ({ s2 with queuedMessages := s2.queuedMessages ++ [m] }, [])) := by
  constructor
  · intro hdb
    simp [procGo, hdb, InputMessage.isConfig, procDestroy]
  · intro s2 m hdb hm
    simp [procGo, hdb, hm]

/-- Witness for the amended C4 at a concrete input: a destroy with key 5
on a live connection closes it and answers success 5, and a query
posted afterwards is buffered, not dispatched. -/
theorem C4_destroy_then_inert_witness :
    procGo testEngine 1
        (.post ⟨some ⟨[], []⟩, goodCfg, [], []⟩ (.destroy 5)) =
      some (⟨none, goodCfg, [], []⟩, [.success 5]) ∧
    procGo testEngine 1
        (.post ⟨none, goodCfg, [], []⟩ (.query 6 "SELECT" [] .all)) =
      some (⟨none, goodCfg, [.query 6 "SELECT" [] .all], []⟩, []) := by
  have h := C4_destroy_then_inert (List Stmt) testEngine 0
    ⟨some ⟨[], []⟩, goodCfg, [], []⟩ ⟨[], []⟩ 5
  exact ⟨h.1 rfl,
    h.2 ⟨none, goodCfg, [], []⟩ (.query 6 "SELECT" [] .all) rfl rfl⟩

/-! ## Claim C7: connection setup failure -/

/-- C7.  If connection setup fails, the processor discards any
partially-created connection (db becomes none) and emits exactly one
error message whose correlation key is null, leaving the queue and the
function registry untouched; on the facade side an error with a null
key matches no pending request and is raised unhandled, resolving
nothing (the facade state is unchanged). -/
theorem C7_setup_failure (σ : Type) (e : Engine σ) (fuel : Nat)
    (s : ProcState σ) (err : Err)
    (hvalid : configValid s.config = true)
    (hopen : e.openDb s.config = .error err) :
    procGo e (fuel + 1) (.init s) =
      some ({ s with db := none }, [.error none err]) ∧
    (∀ c : ClientState,
      clientProcessMessage c (.error none err) =
        (c, [.unhandledError err])) := by
  constructor
  · simp [procGo, hvalid, hopen]
  · intro c
    simp [clientProcessMessage]

/-- Witness for C7 at a concrete input: a failing open with a non-empty
queue emits exactly the one null-key error and keeps the queue; the
facade raises it unhandled without touching its pending map. -/
theorem C7_setup_failure_witness :
    procGo failEngine 1
        (.init ⟨none, goodCfg, [.query 9 "SELECT" [] .all], []⟩) =
      some (⟨none, goodCfg, [.query 9 "SELECT" [] .all], []⟩,
        [.error none (.setupError "open failed")]) ∧
    clientProcessMessage ⟨false, 4, [3], []⟩
        (.error none (.setupError "open failed")) =
      (⟨false, 4, [3], []⟩,
       [.unhandledError (.setupError "open failed")]) := by
  have h := C7_setup_failure (List Stmt) failEngine 0
    ⟨none, goodCfg, [.query 9 "SELECT" [] .all], []⟩
    (.setupError "open failed") (by decide) rfl
  exact ⟨h.1, h.2 ⟨false, 4, [3], []⟩⟩

/-! ## Claim C6: duplicate registration and persistence across re-init -/

/-- Attaching a list of user functions by folding attachUserFunction
appends exactly those names to the attached list, in order. -/
theorem foldl_attachUserFunction (σ : Type) (names : List String)
    (c : Conn σ) :
    (names.foldl attachUserFunction c).attachedFns =
        c.attachedFns ++ names ∧
    (names.foldl attachUserFunction c).engineState = c.engineState := by
  induction names generalizing c with
  | nil => simp
  | cons n rest ih =>
      have h := ih (attachUserFunction c n)
      simpa [attachUserFunction, List.append_assoc] using h

/-- C6.  Registering a function name already present in the registry
emits an error carrying the request key and leaves the whole processor
state — registry and connection, the first attached handler included —
unchanged; and on a connection re-creation (init with a valid config
and a successful open) the registry persists and every registered name
is re-attached to the fresh connection before the queue is flushed:
init continues as flushQueue on a state whose connection already
carries every registered name. -/
theorem C6_registry (σ : Type) (e : Engine σ) (fuel : Nat)
    (s : ProcState σ) (k : QueryKey) (functionName : String) (d : σ)
    (hvalid : configValid s.config = true)
    (hopen : e.openDb s.config = .ok d) :
    (functionName ∈ s.userFunctions →
      procCreateCallbackFunction s k functionName =
        (s, [.error (some k) (.duplicateFunction functionName)])) ∧
    procGo e (fuel + 1) (.init s) =
      procGo e fuel
        (.flush { s with
          db := some (s.userFunctions.foldl attachUserFunction ⟨d, []⟩) }) ∧
    (s.userFunctions.foldl attachUserFunction
        (⟨d, []⟩ : Conn σ)).attachedFns = s.userFunctions := by
  refine ⟨?_, ?_, ?_⟩
  · intro hmem
    simp [procCreateCallbackFunction, hmem]
  · simp [procGo, hvalid, hopen]
  · simpa using (foldl_attachUserFunction σ s.userFunctions ⟨d, []⟩).1

/-- Witness for C6 at a concrete input: with the name f already
registered, a second registration rejects and changes nothing, and a
re-init attaches f to the fresh connection before flushing the (empty)
queue. -/
theorem C6_registry_witness :
    procCreateCallbackFunction
        (⟨some ⟨[], ["f"]⟩, goodCfg, [], ["f"]⟩ : ProcState (List Stmt)) 8 "f" =
      (⟨some ⟨[], ["f"]⟩, goodCfg, [], ["f"]⟩,
       [.error (some 8) (.duplicateFunction "f")]) ∧
    procGo testEngine 2 (.init ⟨some ⟨[], ["f"]⟩, goodCfg, [], ["f"]⟩) =
      some (⟨some ⟨[], ["f"]⟩, goodCfg, [], ["f"]⟩, []) := by
  have h := C6_registry (List Stmt) testEngine 1
    ⟨some ⟨[], ["f"]⟩, goodCfg, [], ["f"]⟩ 8 "f" [] (by decide) rfl
  refine ⟨h.1 (by decide), ?_⟩
  rw [h.2.1]
  decide

/-! ## Claim C2: FIFO buffering and draining of the command queue -/

/-- The body of the postMessage switch for a message that reaches
dispatch and is not a config (processor.ts lines 96-110): route the
message to the matching handler. -/
def procDispatch (e : Engine σ) (s : ProcState σ) :
    InputMessage → ProcState σ × List OutputMessage
  | .query k sql params method => procExecQuery e s k sql params method
  | .transaction k statements => procExecTransaction e s k statements
  | .function k functionName => procCreateCallbackFunction s k functionName
  | .destroy k => procDestroy s k
  | .config _ => (s, [])

/-- With a live connection, posting a non-config message runs the
dispatch switch. -/
theorem procGo_post_dispatch (σ : Type) (e : Engine σ) (fuel : Nat)
    (s : ProcState σ) (c : Conn σ) (m : InputMessage)
    (hdb : s.db = some c) (hcfg : m.isConfig = false) :
    procGo e (fuel + 1) (.post s m) = some (procDispatch e s m) := by
  cases m with
  | config cfg => simp [InputMessage.isConfig] at hcfg
  | query k sql params method => simp [procGo, hdb, procDispatch]
  | transaction k statements => simp [procGo, hdb, procDispatch]
  | function k functionName => simp [procGo, hdb, procDispatch]
  | destroy k => simp [procGo, hdb, procDispatch]

/-- Dispatching a non-config, non-destroy message on a live connection
keeps the connection live, leaves the buffer untouched, and emits
exactly one output message carrying the input correlation key. -/
theorem procDispatch_props (σ : Type) (e : Engine σ) (s : ProcState σ)
    (c : Conn σ) (m : InputMessage) (hdb : s.db = some c)
    (hcfg : m.isConfig = false) (hdes : m.isDestroy = false) :
    (procDispatch e s m).1.db.isSome = true ∧
    (procDispatch e s m).1.queuedMessages = s.queuedMessages ∧
    (procDispatch e s m).2.map OutputMessage.key = [m.key] := by
  cases m with
  | config cfg => simp [InputMessage.isConfig] at hcfg
  | destroy k => simp [InputMessage.isDestroy] at hdes
  | query k sql params method =>
      by_cases hok : e.execOk c.engineState ⟨sql, params⟩ = true <;>
        simp [procDispatch, procExecQuery, hdb, hok,
          OutputMessage.key, InputMessage.key]
  | transaction k statements =>
      cases hrun : runStmts e c.engineState statements <;>
        simp [procDispatch, procExecTransaction, hdb, hrun,
          OutputMessage.key, InputMessage.key]
  | function k functionName =>
      by_cases hmem : functionName ∈ s.userFunctions <;>
        simp [procDispatch, procCreateCallbackFunction, hdb, hmem,
          OutputMessage.key, InputMessage.key]

/-- Unfolding the flushQueue loop one step on a non-empty buffer: shift
the front message, feed it back through postMessage, then continue
flushing. -/
theorem procGo_flush_cons (e : Engine σ) (fuel : Nat) (s : ProcState σ)
    (m : InputMessage) (rest : List InputMessage)
    (hq : s.queuedMessages = m :: rest) :
    procGo e (fuel + 1) (.flush s) =
      (procGo e fuel (.post { s with queuedMessages := rest } m)).bind
        (fun r1 => (procGo e fuel (.flush r1.1)).bind
          fun r2 => some (r2.1, r1.2 ++ r2.2)) := by
  simp only [procGo, hq]
  rfl

/-- Draining lemma behind the amended C2: with a live connection and a
buffer containing no config and no destroy message, flushQueue (given
fuel beyond the buffer length) terminates with an empty buffer, a
still-live connection, and one output per buffered message whose
correlation keys appear in exactly the buffered arrival order. -/
theorem procFlush_drain (σ : Type) (e : Engine σ) :
    ∀ (q : List InputMessage) (fuel : Nat) (s : ProcState σ),
    s.queuedMessages = q → s.db.isSome = true →
    (∀ m ∈ q, m.isConfig = false ∧ m.isDestroy = false) →
    q.length + 1 ≤ fuel →
    ∃ s2 outs, procGo e fuel (.flush s) = some (s2, outs) ∧
      s2.queuedMessages = [] ∧ s2.db.isSome = true ∧
      outs.map OutputMessage.key = q.map InputMessage.key := by
  intro q
  induction q with
  | nil =>
      intro fuel s hq hdb _ hfuel
      obtain ⟨f, rfl⟩ : ∃ f, fuel = f + 1 := by
        cases fuel with
        | zero => omega
        | succ f => exact ⟨f, rfl⟩
      exact ⟨s, [], by simp [procGo, hq], hq, hdb, by simp⟩
  | cons m rest ih =>
      intro fuel s hq hdb hsafe hfuel
      obtain ⟨c, hc⟩ := Option.isSome_iff_exists.mp hdb
      obtain ⟨g, rfl⟩ : ∃ g, fuel = g + 1 + 1 := by
        cases fuel with
        | zero => simp at hfuel
        | succ f =>
            cases f with
            | zero => simp at hfuel
            | succ g => exact ⟨g, rfl⟩
      have hpost : procGo e (g + 1)
          (.post { s with queuedMessages := rest } m) =
          some (procDispatch e { s with queuedMessages := rest } m) :=
        procGo_post_dispatch σ e g { s with queuedMessages := rest } c m hc
          (hsafe m (by simp)).1
      have hprops := procDispatch_props σ e
        { s with queuedMessages := rest } c m hc
        (hsafe m (by simp)).1 (hsafe m (by simp)).2
      obtain ⟨s3, outs, hflush, hq3, hdb3, hkeys⟩ :=
        ih (g + 1) (procDispatch e { s with queuedMessages := rest } m).1
          (by simpa using hprops.2.1) hprops.1
          (fun m2 hm2 => hsafe m2 (by simp [hm2]))
          (by simp at hfuel ⊢; omega)
      refine ⟨s3,
        (procDispatch e { s with queuedMessages := rest } m).2 ++ outs,
        ?_, hq3, hdb3, by simp [hkeys, hprops.2.2]⟩
      rw [procGo_flush_cons e (g + 1) s m rest hq, hpost]
      simp only [Option.some_bind]
      rw [hflush]
      simp

/-- C2, amended.  Every non-config message received while no connection
exists is appended to the command queue instead of being processed;
and once a connection becomes available, provided the buffer contains
no destroy message, the buffered messages are dispatched in exactly
their arrival order (one response per message, response keys in buffer
order) and the buffer is fully drained — the drain runs to completion
inside init, before any newly arriving message is processed.  (With a
buffered destroy followed by further messages the flush loop of the
code never terminates and the buffer is never drained — see the
counterexample.) -/
theorem C2_fifo_queue (σ : Type) (e : Engine σ) :
    (∀ (fuel : Nat) (s : ProcState σ) (m : InputMessage),
      s.db = none → m.isConfig = false →
      procGo e (fuel + 1) (.post s m) =
        some ({ s with queuedMessages := s.queuedMessages ++ [m] }, [])) ∧
    (∀ (fuel : Nat) (s : ProcState σ),
      s.db.isSome = true →
      (∀ m ∈ s.queuedMessages, m.isConfig = false ∧ m.isDestroy = false) →
      s.queuedMessages.length + 1 ≤ fuel →
      ∃ s2 outs, procGo e fuel (.flush s) = some (s2, outs) ∧
        s2.queuedMessages = [] ∧ s2.db.isSome = true ∧
        outs.map OutputMessage.key =
          s.queuedMessages.map InputMessage.key) := by
  constructor
  · intro fuel s m hdb hm
    simp [procGo, hdb, hm]
  · intro fuel s hdb hsafe hfuel
    exact procFlush_drain σ e s.queuedMessages fuel s rfl hdb hsafe hfuel

/-- Witness for the amended C2 at a concrete input: a query buffered
while the connection is down is appended at the back of the queue, and
flushing a two-message buffer on a live connection drains it with the
two response keys in arrival order. -/
theorem C2_fifo_queue_witness :
    procGo testEngine 1
        (.post ⟨none, goodCfg, [.destroy 1], []⟩ (.query 2 "SELECT" [] .all)) =
      some (⟨none, goodCfg, [.destroy 1, .query 2 "SELECT" [] .all], []⟩, []) ∧
    (∃ s2 outs, procGo testEngine 3
        (.flush ⟨some ⟨[], []⟩, goodCfg,
          [.query 2 "SELECT" [] .all, .function 3 "g"], []⟩) =
        some (s2, outs) ∧
      s2.queuedMessages = [] ∧ s2.db.isSome = true ∧
      outs.map OutputMessage.key = [some 2, some 3]) := by
  constructor
  · exact (C2_fifo_queue (List Stmt) testEngine).1 0
      ⟨none, goodCfg, [.destroy 1], []⟩ (.query 2 "SELECT" [] .all) rfl rfl
  · exact (C2_fifo_queue (List Stmt) testEngine).2 3
      ⟨some ⟨[], []⟩, goodCfg,
        [.query 2 "SELECT" [] .all, .function 3 "g"], []⟩
      rfl (by decide) (by decide)

/-- The flush loop makes no progress on a closed connection: a buffered
non-config message is shifted from the front and pushed back at the
rear, so for every fuel the flush of this state fails to terminate.
This is the state reached when a buffered destroy has closed the
connection while a later message is still buffered. -/
theorem c2_flush_stuck (fuel : Nat) :
    procGo testEngine fuel
        (.flush ⟨none, goodCfg, [.query 2 "SELECT" [] .all], []⟩) = none := by
  induction fuel with
  | zero => rfl
  | succ f ih =>
      cases f with
      | zero => rfl
      | succ g =>
          rw [procGo_flush_cons testEngine (g + 1)
            ⟨none, goodCfg, [.query 2 "SELECT" [] .all], []⟩
            (.query 2 "SELECT" [] .all) [] rfl]
          have hpost : procGo testEngine (g + 1)
              (.post ⟨none, goodCfg, [], []⟩ (.query 2 "SELECT" [] .all)) =
              some (⟨none, goodCfg, [.query 2 "SELECT" [] .all], []⟩, []) := by
            simp [procGo, InputMessage.isConfig]
          rw [hpost]
          simp only [Option.some_bind]
          rw [ih]
          rfl

/-- C2, counterexample to the claim as stated.  A buffer holding a
destroy message followed by a query message, flushed on a live
connection with generous fuel, never drains: the destroy closes the
connection mid-flush, after which the query is endlessly re-queued.
The computation exhausts the fuel (and c2_flush_stuck shows every fuel
fails), so the query is never dispatched and the buffer is never
emptied, contradicting the claimed FIFO drain of every buffered
sequence of non-config messages. -/
theorem C2_counterexample :
    procGo testEngine 50
        (.flush ⟨some ⟨[], []⟩, goodCfg,
          [.destroy 1, .query 2 "SELECT" [] .all], []⟩) = none := by
  show procGo testEngine (49 + 1) _ = none
  rw [procGo_flush_cons testEngine 49
    ⟨some ⟨[], []⟩, goodCfg, [.destroy 1, .query 2 "SELECT" [] .all], []⟩
    (.destroy 1) [.query 2 "SELECT" [] .all] rfl]
  have hpost : procGo testEngine 49
      (.post ⟨some ⟨[], []⟩, goodCfg, [.query 2 "SELECT" [] .all], []⟩
        (.destroy 1)) =
      some (⟨none, goodCfg, [.query 2 "SELECT" [] .all], []⟩, [.success 1]) := by
    decide
  rw [hpost]
  simp only [Option.some_bind]
  rw [c2_flush_stuck 49]
  rfl

/-! ## Facade invariants for the correlation map -/

/-- Counting settle events distributes over concatenation. -/
theorem settleCount_append (a b : List RouteEvent) (k : QueryKey) :
    settleCount (a ++ b) k = settleCount a k + settleCount b k := by
  simp [settleCount, List.filter_append]

/-- A singleton event list settles k once if the event settles k. -/
theorem settleCount_singleton (ev : RouteEvent) (k : QueryKey) :
    settleCount [ev] k = if isSettleFor k ev = true then 1 else 0 := by
  by_cases h : isSettleFor k ev = true <;> simp [settleCount, h]

/-- sentKeys distributes over concatenation. -/
theorem sentKeys_append (a b : List InputMessage) :
    sentKeys (a ++ b) = sentKeys a ++ sentKeys b := by
  simp [sentKeys]

/-- The message produced for a request carries exactly the chosen key. -/
theorem Request.withKey_key (r : Request) (k : QueryKey) :
    (r.withKey k).key = some k := by
  cases r <;> rfl

/-- The invariant tying a facade state to the events and sent messages
accumulated so far: pending keys are distinct, below the key seed and
not yet settled; no key at or above the seed has ever been settled; no
key is settled twice; the keys of all sent messages are distinct and
below the seed. -/
structure ClientInv (c : ClientState) (evs : List RouteEvent)
    (sents : List InputMessage) : Prop where
  nodupPending : c.queriesInProgress.Nodup
  pendingBelowSeed : ∀ k ∈ c.queriesInProgress, k < c.nextKeySeed
  unsettledAboveSeed : ∀ k, c.nextKeySeed ≤ k → settleCount evs k = 0
  pendingUnsettled : ∀ k ∈ c.queriesInProgress, settleCount evs k = 0
  settleAtMostOnce : ∀ k, settleCount evs k ≤ 1
  nodupSentKeys : (sentKeys sents).Nodup
  sentBelowSeed : ∀ k ∈ sentKeys sents, k < c.nextKeySeed

/-- The initial facade state satisfies the invariant with empty
histories. -/
theorem clientInv_init : ClientInv initClient [] [] := by
  constructor <;> simp [initClient, settleCount, sentKeys]

/-- Settling a pending key preserves the invariant: the key is removed
from the pending list and gains its single settle event. -/
theorem clientInv_settle (c : ClientState) (evs : List RouteEvent)
    (sents : List InputMessage) (k2 : QueryKey) (ev : RouteEvent)
    (h : ClientInv c evs sents)
    (hev : ∀ k3, isSettleFor k3 ev = (k2 == k3))
    (hk2 : k2 ∈ c.queriesInProgress) :
    ClientInv { c with queriesInProgress := c.queriesInProgress.erase k2 }
      (evs ++ [ev]) sents := by
  obtain ⟨h1, h2, h3, h4, h5, h6, h7⟩ := h
  have hk2lt := h2 k2 hk2
  refine ⟨h1.erase k2, ?_, ?_, ?_, ?_, h6, h7⟩
  · intro k3 hk3
    exact h2 k3 (List.mem_of_mem_erase hk3)
  · intro k3 hk3
    have hk3s : c.nextKeySeed ≤ k3 := hk3
    rw [settleCount_append, settleCount_singleton, h3 k3 hk3s, hev k3]
    have hne : (k2 == k3) = false := by
      simp only [beq_eq_false_iff_ne, ne_eq]
      exact Nat.ne_of_lt (lt_of_lt_of_le hk2lt hk3s)
    rw [hne]
    simp
  · intro k3 hk3
    obtain ⟨hne3, hmem3⟩ := (List.Nodup.mem_erase_iff h1).mp hk3
    rw [settleCount_append, settleCount_singleton, h4 k3 hmem3, hev k3]
    have hne : (k2 == k3) = false := by
      simp only [beq_eq_false_iff_ne, ne_eq]
      exact fun hEq => hne3 hEq.symm
    rw [hne]
    simp
  · intro k3
    rw [settleCount_append, settleCount_singleton, hev k3]
    by_cases hEq : k2 = k3
    · subst hEq
      rw [h4 k2 hk2]
      simp
    · have hne : (k2 == k3) = false := by
        simp only [beq_eq_false_iff_ne, ne_eq]
        exact hEq
      rw [hne]
      simpa using h5 k3
/-- An event that settles no key preserves the invariant with the state
unchanged. -/
theorem clientInv_nonsettle (c : ClientState) (evs : List RouteEvent)
    (sents : List InputMessage) (ev : RouteEvent)
    (h : ClientInv c evs sents)
    (hev : ∀ k3, isSettleFor k3 ev = false) :
    ClientInv c (evs ++ [ev]) sents := by
  obtain ⟨h1, h2, h3, h4, h5, h6, h7⟩ := h
  refine ⟨h1, h2, ?_, ?_, ?_, h6, h7⟩
  · intro k3 hk3
    rw [settleCount_append, settleCount_singleton, h3 k3 hk3, hev k3]
    simp
  · intro k3 hk3
    rw [settleCount_append, settleCount_singleton, h4 k3 hk3, hev k3]
    simp
  · intro k3
    rw [settleCount_append, settleCount_singleton, hev k3]
    simpa using h5 k3

/-- Receiving a message preserves the invariant: a terminal message with
a pending key settles it exactly once and removes it; every other
message settles nothing. -/
theorem clientProcessMessage_inv (c : ClientState) (evs : List RouteEvent)
    (sents : List InputMessage) (m : OutputMessage)
    (h : ClientInv c evs sents) :
    ClientInv (clientProcessMessage c m).1
      (evs ++ (clientProcessMessage c m).2) sents := by
  cases m with
  | data k2 rows columns =>
      by_cases hmem : k2 ∈ c.queriesInProgress
      · simpa [clientProcessMessage, hmem] using
          clientInv_settle c evs sents k2
            (.resolved k2 (.data k2 rows columns)) h
            (fun k3 => by simp [isSettleFor]) hmem
      · simpa [clientProcessMessage, hmem] using h
  | success k2 =>
      by_cases hmem : k2 ∈ c.queriesInProgress
      · simpa [clientProcessMessage, hmem] using
          clientInv_settle c evs sents k2 (.resolved k2 (.success k2)) h
            (fun k3 => by simp [isSettleFor]) hmem
      · simpa [clientProcessMessage, hmem] using h
  | error ok err =>
      cases ok with
      | some k2 =>
          by_cases hmem : k2 ∈ c.queriesInProgress
          · simpa [clientProcessMessage, hmem] using
              clientInv_settle c evs sents k2 (.rejected k2 err) h
                (fun k3 => by simp [isSettleFor]) hmem
          · simpa [clientProcessMessage, hmem] using
              clientInv_nonsettle c evs sents (.unhandledError err) h
                (fun k3 => by simp [isSettleFor])
      | none =>
          simpa [clientProcessMessage] using
            clientInv_nonsettle c evs sents (.unhandledError err) h
              (fun k3 => by simp [isSettleFor])
  | callback name args =>
      by_cases hmem : name ∈ c.userCallbacks
      · simpa [clientProcessMessage, hmem] using
          clientInv_nonsettle c evs sents (.callbackInvoked name args) h
            (fun k3 => by simp [isSettleFor])
      · simpa [clientProcessMessage, hmem] using h

/-- One facade step preserves the invariant. -/
theorem clientStep_inv (c : ClientState) (evs : List RouteEvent)
    (sents : List InputMessage) (i : FacadeInput)
    (h : ClientInv c evs sents) :
    ClientInv (clientStep c i).1 (evs ++ (clientStep c i).2.1)
      (sents ++ (clientStep c i).2.2) := by
  obtain ⟨h1, h2, h3, h4, h5, h6, h7⟩ := h
  cases i with
  | call r =>
      by_cases hdes : c.isDestroyed = true
      · simpa [clientStep, clientCreateQuery, hdes] using
          clientInv_nonsettle c evs sents .threwDestroyedError
            ⟨h1, h2, h3, h4, h5, h6, h7⟩ (fun k3 => by simp [isSettleFor])
      · have hsuf : ClientInv ({ c with nextKeySeed := c.nextKeySeed + 1, queriesInProgress := c.queriesInProgress ++ [c.nextKeySeed] }) evs (sents ++ [r.withKey c.nextKeySeed]) := by
          refine ⟨?_, ?_, ?_, ?_, h5, ?_, ?_⟩ <;> dsimp only
          · rw [List.nodup_append]
            refine ⟨h1, List.nodup_singleton _, ?_⟩
            intro a ha hb
            simp only [List.mem_singleton] at hb
            subst hb
            exact absurd (h2 _ ha) (lt_irrefl _)
          · intro k hk
            rcases List.mem_append.mp hk with hk | hk
            · exact Nat.lt_succ_of_lt (h2 k hk)
            · simp only [List.mem_singleton] at hk
              subst hk
              exact Nat.lt_succ_self _
          · intro k hk
            exact h3 k (by omega)
          · intro k hk
            rcases List.mem_append.mp hk with hk | hk
            · exact h4 k hk
            · simp only [List.mem_singleton] at hk
              subst hk
              exact h3 _ (le_refl _)
          · rw [sentKeys_append, List.nodup_append]
            refine ⟨h6, ?_, ?_⟩
            · simp [sentKeys, Request.withKey_key]
            · intro a ha hb
              simp only [sentKeys, List.filterMap_cons, Request.withKey_key,
                List.filterMap_nil, List.mem_singleton] at hb
              subst hb
              exact absurd (h7 _ ha) (lt_irrefl _)
          · intro k hk
            rw [sentKeys_append] at hk
            rcases List.mem_append.mp hk with hk | hk
            · exact Nat.lt_succ_of_lt (h7 k hk)
            · simp only [sentKeys, List.filterMap_cons, Request.withKey_key,
                List.filterMap_nil, List.mem_singleton] at hk
              subst hk
              exact Nat.lt_succ_self _
        simpa [clientStep, clientCreateQuery, hdes] using hsuf
  | recv m =>
      simpa [clientStep] using
        clientProcessMessage_inv c evs sents m ⟨h1, h2, h3, h4, h5, h6, h7⟩
  | finishDestroy =>
      have hsuf : ClientInv ({ c with queriesInProgress := [], userCallbacks := [], isDestroyed := true }) evs sents :=
        ⟨by simp, by simp, h3, by simp, h5, h6, h7⟩
      simpa [clientStep] using hsuf
  | registerHandler name =>
      by_cases hmem : name ∈ c.userCallbacks
      · simpa [clientStep, hmem] using
          (⟨h1, h2, h3, h4, h5, h6, h7⟩ : ClientInv c evs sents)
      · have hsuf : ClientInv ({ c with userCallbacks := c.userCallbacks ++ [name] }) evs sents :=
          ⟨h1, h2, h3, h4, h5, h6, h7⟩
        simpa [clientStep, hmem] using hsuf

/-- Running the facade preserves the invariant over any input list. -/
theorem clientRun_inv (inputs : List FacadeInput) (c : ClientState)
    (evs : List RouteEvent) (sents : List InputMessage)
    (h : ClientInv c evs sents) :
    ClientInv (clientRun c inputs).1
      (evs ++ (clientRun c inputs).2.1)
      (sents ++ (clientRun c inputs).2.2) := by
  induction inputs generalizing c evs sents with
  | nil => simpa [clientRun] using h
  | cons i rest ih =>
      have hstep := clientStep_inv c evs sents i h
      have hrest := ih (clientStep c i).1 (evs ++ (clientStep c i).2.1)
        (sents ++ (clientStep c i).2.2) hstep
      simpa [clientRun, List.append_assoc] using hrest

/-! ## Claim C3: correlation keys are fresh and routed at most once -/

/-- C3.  Sending a request creates exactly one new pending entry under
the freshly drawn key and posts a message carrying that key; receipt of
the terminal data, success or error message for a pending key settles
it exactly once (one resolve or reject event) and removes the entry
from the map; and over every run of the facade from its initial state,
every key is settled at most once (never routed twice) and the keys of
all sent messages are pairwise distinct (never reused). -/
theorem C3_correlation_unique :
    (∀ (c : ClientState) (r : Request), c.isDestroyed = false →
      clientCreateQuery c r = .ok
        ({ c with nextKeySeed := c.nextKeySeed + 1, queriesInProgress := c.queriesInProgress ++ [c.nextKeySeed] },
         c.nextKeySeed, r.withKey c.nextKeySeed)) ∧
    (∀ (c : ClientState) (k : QueryKey) (rows : RowsField)
        (columns : List String), k ∈ c.queriesInProgress →
      clientProcessMessage c (.data k rows columns) =
        ({ c with queriesInProgress := c.queriesInProgress.erase k },
         [.resolved k (.data k rows columns)])) ∧
    (∀ (c : ClientState) (k : QueryKey), k ∈ c.queriesInProgress →
      clientProcessMessage c (.success k) =
        ({ c with queriesInProgress := c.queriesInProgress.erase k },
         [.resolved k (.success k)])) ∧
    (∀ (c : ClientState) (k : QueryKey) (err : Err),
        k ∈ c.queriesInProgress →
      clientProcessMessage c (.error (some k) err) =
        ({ c with queriesInProgress := c.queriesInProgress.erase k },
         [.rejected k err])) ∧
    (∀ (inputs : List FacadeInput) (k : QueryKey),
      settleCount (clientRun initClient inputs).2.1 k ≤ 1) ∧
    (∀ inputs : List FacadeInput,
      (sentKeys (clientRun initClient inputs).2.2).Nodup) := by
  refine ⟨?_, ?_, ?_, ?_, ?_, ?_⟩
  · intro c r hdes
    simp [clientCreateQuery, hdes]
  · intro c k rows columns hmem
    simp [clientProcessMessage, hmem]
  · intro c k hmem
    simp [clientProcessMessage, hmem]
  · intro c k err hmem
    simp [clientProcessMessage, hmem]
  · intro inputs k
    have h := clientRun_inv inputs initClient [] [] clientInv_init
    simpa using h.settleAtMostOnce k
  · intro inputs
    have h := clientRun_inv inputs initClient [] [] clientInv_init
    simpa using h.nodupSentKeys

/-- Witness for C3 at concrete inputs: a fresh client issues key 0 with
a single new map entry; a pending key 1 is settled and removed by its
success message; and on a concrete run that even replays a terminal
message, key 0 is settled at most once and the sent keys are distinct. -/
theorem C3_correlation_unique_witness :
    clientCreateQuery initClient (.function "f") =
      .ok (⟨false, 1, [0], []⟩, 0, .function 0 "f") ∧
    clientProcessMessage ⟨false, 2, [1], []⟩ (.success 1) =
      (⟨false, 2, [], []⟩, [.resolved 1 (.success 1)]) ∧
    settleCount (clientRun initClient
      [.call .destroy, .recv (.success 0), .recv (.success 0)]).2.1 0 ≤ 1 ∧
    (sentKeys (clientRun initClient
      [.call .destroy, .call (.function "f")]).2.2).Nodup := by
  refine ⟨?_, ?_, ?_, ?_⟩
  · exact C3_correlation_unique.1 initClient (.function "f") rfl
  · exact C3_correlation_unique.2.2.1 ⟨false, 2, [1], []⟩ 1 (by decide)
  · exact C3_correlation_unique.2.2.2.2.1
      [.call .destroy, .recv (.success 0), .recv (.success 0)] 0
  · exact C3_correlation_unique.2.2.2.2.2
      [.call .destroy, .call (.function "f")]

/-! ## Claim C5: calls after destroy fail locally -/

/-- C5.  After destroy has completed the destroyed flag is set, and
every public API call on a destroyed client — sql and execute,
transaction, createCallbackFunction and destroy all funnel through
createQuery — fails immediately and locally with the distinguishable
destroyed-client error: no message is sent across the channel and the
facade state is unchanged. -/
theorem C5_destroyed_local_failure :
    (∀ (c : ClientState) (r : Request), c.isDestroyed = true →
      clientCreateQuery c r = .error .destroyedClient ∧
      clientStep c (.call r) = (c, [.threwDestroyedError], [])) ∧
    (∀ c : ClientState, ((clientStep c .finishDestroy).1).isDestroyed = true) := by
  constructor
  · intro c r hdes
    constructor
    · simp [clientCreateQuery, hdes]
    · simp [clientStep, clientCreateQuery, hdes]
  · intro c
    simp [clientStep]

/-- Witness for C5 at a concrete destroyed client, covering a query, a
transaction and a destroy request: each fails locally with the
destroyed error and no message is sent. -/
theorem C5_destroyed_local_failure_witness :
    clientCreateQuery ⟨true, 5, [2], ["f"]⟩ (.query "SELECT" [] .all) =
      .error .destroyedClient ∧
    clientStep ⟨true, 5, [2], ["f"]⟩ (.call (.transaction [⟨"INSERT", []⟩])) =
      (⟨true, 5, [2], ["f"]⟩, [.threwDestroyedError], []) ∧
    clientStep ⟨true, 5, [2], ["f"]⟩ (.call .destroy) =
      (⟨true, 5, [2], ["f"]⟩, [.threwDestroyedError], []) :=
  ⟨(C5_destroyed_local_failure.1 ⟨true, 5, [2], ["f"]⟩
      (.query "SELECT" [] .all) rfl).1,
   (C5_destroyed_local_failure.1 ⟨true, 5, [2], ["f"]⟩
      (.transaction [⟨"INSERT", []⟩]) rfl).2,
   (C5_destroyed_local_failure.1 ⟨true, 5, [2], ["f"]⟩ .destroy rfl).2⟩

/-! ## Claim C9: destroy abandons pending requests -/

/-- C9.  When destroy completes, every pending entry still in the
correlation map is cleared without being resolved or rejected (the
clearing step emits no routing events at all), and afterwards no
received message can settle an abandoned key — the corresponding
awaiting calls are never completed. -/
theorem C9_destroy_abandons_pending :
    (∀ c : ClientState,
      clientStep c .finishDestroy =
        ({ c with queriesInProgress := [], userCallbacks := [], isDestroyed := true }, [], [])) ∧
    (∀ (c2 : ClientState) (k : QueryKey) (m : OutputMessage),
      c2.queriesInProgress = [] →
      settleCount (clientProcessMessage c2 m).2 k = 0) := by
  constructor
  · intro c
    rfl
  · intro c2 k m hq
    cases m with
    | data k2 rows columns => simp [clientProcessMessage, hq, settleCount]
    | success k2 => simp [clientProcessMessage, hq, settleCount]
    | error ok err =>
        cases ok with
        | some k2 =>
            simp [clientProcessMessage, hq, settleCount, isSettleFor]
        | none => simp [clientProcessMessage, settleCount, isSettleFor]
    | callback name args =>
        by_cases hmem : name ∈ c2.userCallbacks <;>
          simp [clientProcessMessage, hmem, settleCount, isSettleFor]

/-- Witness for C9 at a concrete input: a client with two pending keys
is cleared by destroy with no routing events, and a success message for
an abandoned key settles nothing afterwards. -/
theorem C9_destroy_abandons_pending_witness :
    clientStep ⟨false, 3, [0, 2], ["f"]⟩ .finishDestroy =
      (⟨true, 3, [], []⟩, [], []) ∧
    settleCount (clientProcessMessage ⟨true, 3, [], []⟩ (.success 0)).2 0 = 0 :=
  ⟨C9_destroy_abandons_pending.1 ⟨false, 3, [0, 2], ["f"]⟩,
   C9_destroy_abandons_pending.2 ⟨true, 3, [], []⟩ 0 (.success 0) rfl⟩

end SQLocalSpec
